import Mathlib

/-!
Verification of the codeql-ts wrapper (src/src/index.ts).

The TypeScript source is shallowly embedded: the language tables become
association lists of strings, the CodeQL class becomes a state record with
explicit state passing, JavaScript Map operations become association-list
operations that agree with Map lookup semantics (latest set wins), and the
asynchronous subprocess runner becomes a pure function over an environment
describing the external events (which of the close event and the timer fires
first, the exit code passed to the close handler, and the sizes and contents
of the two captured files) that records its observable effects in a result
record.
-/

set_option autoImplicit false

/-- Embeds the constant LanguageIdToLanguage (index.ts lines 14-25): a mapping
from language IDs to language names, as an association list in source order. -/
def LanguageIdToLanguage : List (String × String) :=
  [("cpp", "cpp"), ("cs", "csharp"), ("go", "go"), ("java", "java"),
   ("js", "javascript"), ("py", "python"), ("rb", "ruby"), ("rust", "rust"),
   ("swift", "swift"), ("actions", "actions")]

/-- Lookup in an association list, first match wins.  This agrees with
JavaScript object indexing and Map.get for the tables of this development
(objects with distinct keys; Maps modelled by prepending on set). -/
def lookupAssoc : List (String × String) → String → Option String
  | [], _ => none
  | (k, v) :: rest, key => if k = key then some v else lookupAssoc rest key

/-- Embeds SupportedLanguages (index.ts lines 34-35): Object.values of the
table, i.e. the full language names in table order. -/
def SupportedLanguages : List String := LanguageIdToLanguage.map Prod.snd

/-- Embeds SupportedLanguageIds (index.ts lines 38-40): Object.keys of the
table, i.e. the short IDs in table order. -/
def SupportedLanguageIds : List String := LanguageIdToLanguage.map Prod.fst

/-- Embeds LanguageToLanguageId (index.ts lines 43-49): Object.fromEntries of
the swapped entries of LanguageIdToLanguage. -/
def LanguageToLanguageId : List (String × String) :=
  LanguageIdToLanguage.map (fun p => (p.2, p.1))

/-- Mapping a full language name to its short ID and back
(LanguageToLanguageId then LanguageIdToLanguage). -/
def roundTripLanguage (lang : String) : Option String :=
  (lookupAssoc LanguageToLanguageId lang).bind (lookupAssoc LanguageIdToLanguage)

/-- Mapping a short language ID to its full name and back
(LanguageIdToLanguage then LanguageToLanguageId). -/
def roundTripLanguageId (id : String) : Option String :=
  (lookupAssoc LanguageIdToLanguage id).bind (lookupAssoc LanguageToLanguageId)

/-- A cache with JavaScript Map semantics for string keys.  A set is a
prepend, so the first match (lookupCache) is the most recent write, matching
Map.get; a stored value of none models a stored undefined (Map.set with an
out-of-range array access as value), which Map.has still reports as present. -/
abbrev Cache := List (String × Option String)

/-- First-match lookup in the cache; some v means the key is present (Map.has)
and v is the stored value (possibly undefined, i.e. none). -/
def lookupCache : Cache → String → Option (Option String)
  | [], _ => none
  | (k, v) :: rest, key => if k = key then some v else lookupCache rest key

/-- Embeds Map.has: the key is present in the cache. -/
def mapHas (c : Cache) (key : String) : Bool := (lookupCache c key).isSome

/-- Embeds Map.get (with the non-null assertion erased to Option): the stored
value, or none when the key is absent or the stored value is undefined. -/
def mapGet (c : Cache) (key : String) : Option String :=
  (lookupCache c key).getD none

/-- Embeds Map.set: prepending, so that lookupCache finds the latest write. -/
def mapSet (c : Cache) (key : String) (v : Option String) : Cache := (key, v) :: c

/-- Embeds the CodeQL class state (index.ts lines 83-116): the constructor
arguments packVersions and timeout, and the resolvedQueries cache mapping
query IDs to ql file paths (initially empty). -/
structure CodeQL where
  packVersions : List (String × String)
  timeout : Int
  resolvedQueries : Cache
deriving DecidableEq

/-- Embeds the static CodeQL.getDefaultQueryPackName (index.ts lines 182-184). -/
def CodeQL.getDefaultQueryPackName (language : String) : String :=
  "codeql/" ++ language ++ "-queries"

/-- Embeds CodeQL.getDefaultQueryPackVersion (index.ts lines 189-195): the
configured version of the default pack, or a thrown error when the pack name
is not in packVersions. -/
def CodeQL.getDefaultQueryPackVersion (c : CodeQL) (language : String) :
    Except String String :=
  match lookupAssoc c.packVersions (CodeQL.getDefaultQueryPackName language) with
  | some v => .ok v
  | none => .error ("No default query pack version found for " ++ language)

/-- One element of the JSON array written by makeSuite (index.ts lines
283-294): either the pack entry with fields queries, from and version, or the
include entry with the list of query IDs under include.id. -/
inductive SuiteEntry where
  | packEntry (queries : String) (from_ : String) (version : String)
  | includeEntry (ids : List String)
deriving DecidableEq

/-- Embeds CodeQL.makeSuite (index.ts lines 279-297): the parsed JSON content
of the qls file it writes — a two-element array — or the error thrown by
getDefaultQueryPackVersion. -/
def CodeQL.makeSuite (c : CodeQL) (language : String) (queryIds : List String) :
    Except String (List SuiteEntry) :=
  match c.getDefaultQueryPackVersion language with
  | .error e => .error e
  | .ok v =>
    .ok [SuiteEntry.packEntry "." (CodeQL.getDefaultQueryPackName language) v,
         SuiteEntry.includeEntry queryIds]

/-- Embeds the for loop of resolveQueries (index.ts lines 322-324): for each
index i below unresolved.length, set unresolved[i] to resolved[i] in the
cache (an out-of-range resolved[i] is JavaScript undefined, i.e. none). -/
def populateCache (c : Cache) (unresolved : List String) (resolved : List String) :
    Cache :=
  match unresolved with
  | [] => c
  | u :: us => populateCache (mapSet c u resolved.head?) us (resolved.drop 1)

/-- The outcome of one resolveQueries call: the returned list (one entry per
requested ID, none standing for undefined), the updated wrapper state, and
the IDs listed in the one-shot suite of the issued resolve invocation (none
when no invocation was issued). -/
structure ResolveOutcome where
  results : List (Option String)
  state : CodeQL
  request : Option (List String)
deriving DecidableEq

/-- Embeds CodeQL.resolveQueries (index.ts lines 300-328).  The external
resolve invocation (gh codeql resolve queries --format=json on the suite,
parsed) is abstracted as the oracle resolver from the suite's query-ID list
to the resolved path array.  The thrown error of makeSuite propagates. -/
def CodeQL.resolveQueries (c : CodeQL) (resolver : List String → List String)
    (language : String) (ids : List String) : Except String ResolveOutcome :=
  let unresolved := ids.filter (fun id => !(mapHas c.resolvedQueries id))
  if unresolved.length > 0 then
    match c.makeSuite language unresolved with
    | .error e => .error e
    | .ok _suite =>
      let resolved := resolver unresolved
      let cache' := populateCache c.resolvedQueries unresolved resolved
      .ok { results := ids.map (mapGet cache'),
            state := { c with resolvedQueries := cache' },
            request := some unresolved }
  else
    .ok { results := ids.map (mapGet c.resolvedQueries),
          state := c,
          request := none }

/-- The hard size cap of runAsyncShell (index.ts lines 441-444): 1 GiB. -/
def oneGiB : Nat := 1024 * 1024 * 1024

/-- The external events one runAsyncShell call observes: whether the close
event of the spawned process occurs before the armed timer would fire, the
exit code passed to the close handler (none for a null code), and the sizes
and contents of the two temporary capture files at resolution time. -/
structure ShellEnv where
  procClosesFirst : Bool
  closeCode : Option Int
  stdoutSize : Nat
  stderrSize : Nat
  stdoutData : String
  stderrData : String
deriving DecidableEq

/-- The observable outcome of one runAsyncShell call: the returned triple
(code, stdout, stderr) and the effect trace — whether the timer was armed
(timeout strictly positive), whether the close handler cancelled a pending
timer, the kill signal sent to the process (if any), whether each capture
file was read into memory, and whether each capture file was deleted before
returning. -/
structure RunOutcome where
  code : Int
  stdout : String
  stderr : String
  timerArmed : Bool
  timerCleared : Bool
  killSignal : Option String
  stdoutRead : Bool
  stderrRead : Bool
  stdoutFileDeleted : Bool
  stderrFileDeleted : Bool
deriving DecidableEq

/-- Embeds runAsyncShell (index.ts lines 393-456).  The timer promise arms a
timer only when timeout is strictly positive; if the timer fires before the
close event, the process is killed with SIGKILL and the race resolves with
124, otherwise the close handler cancels any pending timer and resolves with
the close code (null normalized to 0).  After the race, if either capture
file exceeds 1 GiB the call returns the triple (124, empty string,
explanatory message) immediately — without reading and without deleting the
files; otherwise both files are read, the streams closed, both files deleted,
and the race code returned with the captured contents. -/
def runAsyncShell (timeout : Int) (env : ShellEnv) : RunOutcome :=
  let timerArmed := decide (0 < timeout)
  let timerWins := timerArmed && !env.procClosesFirst
  let code : Int := if timerWins then 124 else (env.closeCode.getD 0)
  if env.stdoutSize > oneGiB || env.stderrSize > oneGiB then
    { code := 124, stdout := "",
      stderr := "stdout or stderr file is larger than 1GB",
      timerArmed := timerArmed,
      timerCleared := !timerWins && timerArmed,
      killSignal := if timerWins then some "SIGKILL" else none,
      stdoutRead := false, stderrRead := false,
      stdoutFileDeleted := false, stderrFileDeleted := false }
  else
    { code := code, stdout := env.stdoutData, stderr := env.stderrData,
      timerArmed := timerArmed,
      timerCleared := !timerWins && timerArmed,
      killSignal := if timerWins then some "SIGKILL" else none,
      stdoutRead := true, stderrRead := true,
      stdoutFileDeleted := true, stderrFileDeleted := true }

/-- The JavaScript Error thrown by CodeQL.gh, with its message and its cause
option (the captured stderr). -/
structure JsError where
  message : String
  cause : String
deriving DecidableEq

/-- Embeds CodeQL.gh (index.ts lines 141-154): run the command through
runAsyncShell with the instance timeout; on a nonzero exit code throw an
Error carrying the captured stderr as cause, otherwise return the captured
stdout. -/
def CodeQL.gh (c : CodeQL) (args : List String) (env : ShellEnv) :
    Except JsError String :=
  let r := runAsyncShell c.timeout env
  if r.code ≠ 0 then
    .error { message := "Failed to execute: gh " ++ String.intercalate " " args,
             cause := r.stderr }
  else
    .ok r.stdout

/-- The observable outcome of the validation phase of CodeQL.make: the thrown
validation error if any, whether control reached the version check
(ensureCliVersion — the only point from which subprocesses are spawned), and
the constructed wrapper state if validation passed. -/
structure MakeStep where
  validationError : Option String
  versionCheckStarted : Bool
  state : Option CodeQL
deriving DecidableEq

/-- Embeds the static CodeQL.make (index.ts lines 95-106) up to the external
version check: timeout strictly below -1 throws before the constructor and
before ensureCliVersion runs; otherwise the state is constructed (empty
resolvedQueries cache) and ensureCliVersion is invoked on it. -/
def CodeQL.make (codeQlVersion : String) (packVersions : List (String × String))
    (timeout : Int) : MakeStep :=
  if timeout < -1 then
    { validationError := some "Timeout must be -1 or a positive number.",
      versionCheckStarted := false, state := none }
  else
    { validationError := none, versionCheckStarted := true,
      state := some { packVersions := packVersions, timeout := timeout,
                      resolvedQueries := [] } }

/-- Claim C7: the language mapping is a bijection: for every supported
language, full name to short ID to full name returns the original, and for
every supported short ID, short ID to full name to short ID returns the
original; SupportedLanguages and SupportedLanguageIds have equal cardinality
and correspond element-for-element under the mapping. -/
theorem language_mapping_bijection :
    (∀ lang ∈ SupportedLanguages, roundTripLanguage lang = some lang) ∧
    (∀ id ∈ SupportedLanguageIds, roundTripLanguageId id = some id) ∧
    SupportedLanguages.length = SupportedLanguageIds.length ∧
    (∀ i, i < SupportedLanguageIds.length →
      (SupportedLanguageIds[i]?.bind (lookupAssoc LanguageIdToLanguage))
          = SupportedLanguages[i]? ∧
      (SupportedLanguages[i]?.bind (lookupAssoc LanguageToLanguageId))
          = SupportedLanguageIds[i]?) := by
  decide

/-- Witness for C7 at the concrete language "javascript" and ID "js". -/
theorem language_mapping_bijection_witness :
    roundTripLanguage "javascript" = some "javascript" ∧
    roundTripLanguageId "js" = some "js" :=
  ⟨language_mapping_bijection.1 "javascript" (by decide),
   language_mapping_bijection.2.1 "js" (by decide)⟩

/-- Claim C1 counterexample: on the 1 GiB short-circuit path the call returns
without deleting the two temporary capture files.  Concrete input: timeout 1,
process closed first with code 0, stdout file of 1 GiB + 1 bytes. -/
theorem runAsyncShell_cap_leaks_tempfiles :
    (runAsyncShell 1 (ShellEnv.mk true (some 0) (oneGiB + 1) 0 "" "")).stdoutFileDeleted
        = false ∧
    (runAsyncShell 1 (ShellEnv.mk true (some 0) (oneGiB + 1) 0 "" "")).stderrFileDeleted
        = false := by
  decide

/-- Claim C1 as amended: the two temporary capture files are deleted before
the call returns exactly on the paths that pass the 1 GiB size check (whether
the race ended by exit or by timeout, and whatever the exit code); on the
short-circuit path where either file exceeds 1 GiB the call returns without
deleting them. -/
theorem runAsyncShell_tempfile_deletion (timeout : Int) (env : ShellEnv) :
    ((runAsyncShell timeout env).stdoutFileDeleted = true ↔
      env.stdoutSize ≤ oneGiB ∧ env.stderrSize ≤ oneGiB) ∧
    ((runAsyncShell timeout env).stderrFileDeleted = true ↔
      env.stdoutSize ≤ oneGiB ∧ env.stderrSize ≤ oneGiB) := by
  by_cases hs : oneGiB < env.stdoutSize ∨ oneGiB < env.stderrSize
  · have hc : (decide (env.stdoutSize > oneGiB) || decide (env.stderrSize > oneGiB))
        = true := by
      rcases hs with h | h <;> simp [h]
    unfold runAsyncShell
    rw [hc]
    constructor <;>
      exact ⟨fun hx => by simp at hx, fun hx => by exfalso; omega⟩
  · push_neg at hs
    have hc : (decide (env.stdoutSize > oneGiB) || decide (env.stderrSize > oneGiB))
        = false := by
      simp [Nat.not_lt.mpr hs.1, Nat.not_lt.mpr hs.2]
    unfold runAsyncShell
    rw [hc]
    constructor <;> exact ⟨fun _ => hs, fun _ => by simp⟩

/-- Claim C2: whenever either capture file exceeds 1 GiB after the race
resolves, the call returns exit code 124, an empty stdout string and the
explanatory stderr string, and neither capture file is read into memory. -/
theorem runAsyncShell_size_cap (timeout : Int) (env : ShellEnv)
    (h : oneGiB < env.stdoutSize ∨ oneGiB < env.stderrSize) :
    (runAsyncShell timeout env).code = 124 ∧
    (runAsyncShell timeout env).stdout = "" ∧
    (runAsyncShell timeout env).stderr = "stdout or stderr file is larger than 1GB" ∧
    (runAsyncShell timeout env).stdoutRead = false ∧
    (runAsyncShell timeout env).stderrRead = false := by
  have hc : (env.stdoutSize > oneGiB || env.stderrSize > oneGiB) = true := by
    rcases h with h | h <;> simp [h]
  unfold runAsyncShell
  rw [hc]
  exact ⟨rfl, rfl, rfl, rfl, rfl⟩

/-- Witness for C2: a concrete run whose stdout file holds 1 GiB + 1 bytes
returns (124, empty, explanation) without reading either file. -/
theorem runAsyncShell_size_cap_witness :
    (runAsyncShell 5 (ShellEnv.mk true (some 0) (oneGiB + 1) 0 "huge" "")).code = 124 ∧
    (runAsyncShell 5 (ShellEnv.mk true (some 0) (oneGiB + 1) 0 "huge" "")).stdout = "" ∧
    (runAsyncShell 5 (ShellEnv.mk true (some 0) (oneGiB + 1) 0 "huge" "")).stderr
      = "stdout or stderr file is larger than 1GB" ∧
    (runAsyncShell 5 (ShellEnv.mk true (some 0) (oneGiB + 1) 0 "huge" "")).stdoutRead
      = false ∧
    (runAsyncShell 5 (ShellEnv.mk true (some 0) (oneGiB + 1) 0 "huge" "")).stderrRead
      = false :=
  runAsyncShell_size_cap 5 _ (Or.inl (Nat.lt_succ_self _))

/-- Claim C3 counterexample: with a positive timeout and the process exiting
first with real exit code 0, the call still returns 124 when the stdout file
exceeds 1 GiB — so the winner of the race does not always determine the
returned exit code. -/
theorem runAsyncShell_race_counterexample :
    (0 : Int) < 5 ∧
    (ShellEnv.mk true (some 0) (oneGiB + 1) 0 "" "").procClosesFirst = true ∧
    (ShellEnv.mk true (some 0) (oneGiB + 1) 0 "" "").closeCode = some 0 ∧
    (runAsyncShell 5 (ShellEnv.mk true (some 0) (oneGiB + 1) 0 "" "")).code = 124 := by
  decide

/-- Claim C3 as amended: with timeoutSeconds > 0 and neither capture file over
the 1 GiB cap, the first of the two events determines the returned exit code:
if the timer fires first the process is killed with SIGKILL and 124 is
returned; if the process exits first the timer is cancelled, no kill signal
is sent, and the real exit code is returned with null normalized to 0.  (When
either file exceeds the cap, 124 is returned regardless of the race.) -/
theorem runAsyncShell_race (timeout : Int) (env : ShellEnv)
    (ht : 0 < timeout)
    (hout : env.stdoutSize ≤ oneGiB) (herr : env.stderrSize ≤ oneGiB) :
    (env.procClosesFirst = false →
      (runAsyncShell timeout env).killSignal = some "SIGKILL" ∧
      (runAsyncShell timeout env).code = 124) ∧
    (env.procClosesFirst = true →
      (runAsyncShell timeout env).timerCleared = true ∧
      (runAsyncShell timeout env).killSignal = none ∧
      (runAsyncShell timeout env).code = env.closeCode.getD 0) := by
  have hc : (env.stdoutSize > oneGiB || env.stderrSize > oneGiB) = false := by
    simp [Nat.not_lt.mpr hout, Nat.not_lt.mpr herr]
  unfold runAsyncShell
  rw [hc]
  constructor
  · intro hrace
    simp [hrace, ht]
  · intro hrace
    simp [hrace, ht]

/-- Witness for C3 (amended), both branches: a timer-first run returns 124
after SIGKILL, and a process-first run with close code 3 cancels the timer
and returns 3. -/
theorem runAsyncShell_race_witness :
    (runAsyncShell 5 (ShellEnv.mk false (some 0) 3 0 "o" "e")).killSignal
        = some "SIGKILL" ∧
    (runAsyncShell 5 (ShellEnv.mk false (some 0) 3 0 "o" "e")).code = 124 ∧
    (runAsyncShell 5 (ShellEnv.mk true (some 3) 3 0 "o" "e")).timerCleared = true ∧
    (runAsyncShell 5 (ShellEnv.mk true (some 3) 3 0 "o" "e")).code = 3 :=
  ⟨((runAsyncShell_race 5 _ (by decide) (by decide) (by decide)).1 rfl).1,
   ((runAsyncShell_race 5 _ (by decide) (by decide) (by decide)).1 rfl).2,
   ((runAsyncShell_race 5 _ (by decide) (by decide) (by decide)).2 rfl).1,
   ((runAsyncShell_race 5 _ (by decide) (by decide) (by decide)).2 rfl).2.2⟩

/-- Claim C6: the subprocess runner is a total function into result triples
(it never throws for a nonzero exit code), while the gh facade returns an
error exactly when the exit code is nonzero, and that error carries the
captured stderr as its cause. -/
theorem gh_throws_iff_nonzero (c : CodeQL) (args : List String) (env : ShellEnv) :
    ((c.gh args env).isOk = true ↔ (runAsyncShell c.timeout env).code = 0) ∧
    ((runAsyncShell c.timeout env).code ≠ 0 →
      c.gh args env = .error
        { message := "Failed to execute: gh " ++ String.intercalate " " args,
          cause := (runAsyncShell c.timeout env).stderr }) ∧
    ((runAsyncShell c.timeout env).code = 0 →
      c.gh args env = .ok (runAsyncShell c.timeout env).stdout) := by
  unfold CodeQL.gh
  by_cases h : (runAsyncShell c.timeout env).code = 0 <;>
    simp [h, Except.isOk, Except.toBool]

/-- Witness for C6: with timeout -1 and a process that exits with code 2 and
stderr text, gh returns the error carrying that stderr; with exit code 0, gh
returns the captured stdout. -/
theorem gh_throws_iff_nonzero_witness :
    (CodeQL.mk [] (-1) []).gh ["--version"]
        (ShellEnv.mk true (some 2) 0 0 "out" "boom")
      = .error { message := "Failed to execute: gh --version", cause := "boom" } ∧
    (CodeQL.mk [] (-1) []).gh ["--version"]
        (ShellEnv.mk true (some 0) 0 0 "out" "")
      = .ok "out" :=
  ⟨(gh_throws_iff_nonzero (CodeQL.mk [] (-1) []) ["--version"]
      (ShellEnv.mk true (some 2) 0 0 "out" "boom")).2.1 (by decide),
   (gh_throws_iff_nonzero (CodeQL.mk [] (-1) []) ["--version"]
      (ShellEnv.mk true (some 0) 0 0 "out" "")).2.2 (by decide)⟩

/-- Claim C9: constructing the wrapper with a timeout strictly below -1
throws the validation error before the version check (the only point that
spawns subprocesses) runs, while -1 and every timeout at least 0 pass the
validation and reach the version check. -/
theorem make_timeout_validation (ver : String) (pv : List (String × String))
    (t : Int) :
    (t < -1 → CodeQL.make ver pv t =
      { validationError := some "Timeout must be -1 or a positive number.",
        versionCheckStarted := false, state := none }) ∧
    (t = -1 ∨ 0 ≤ t →
      (CodeQL.make ver pv t).validationError = none ∧
      (CodeQL.make ver pv t).versionCheckStarted = true ∧
      (CodeQL.make ver pv t).state
        = some { packVersions := pv, timeout := t, resolvedQueries := [] }) := by
  unfold CodeQL.make
  constructor
  · intro h
    rw [if_pos h]
  · intro h
    have hn : ¬ t < -1 := by rcases h with h | h <;> omega
    rw [if_neg hn]
    exact ⟨rfl, rfl, rfl⟩

/-- Witness for C9: timeout -2 fails validation without reaching the version
check; timeouts -1 and 0 pass validation. -/
theorem make_timeout_validation_witness :
    (CodeQL.make "2.20.0" [] (-2)).versionCheckStarted = false ∧
    (CodeQL.make "2.20.0" [] (-1)).validationError = none ∧
    (CodeQL.make "2.20.0" [] 0).validationError = none :=
  ⟨by rw [(make_timeout_validation "2.20.0" [] (-2)).1 (by decide)],
   ((make_timeout_validation "2.20.0" [] (-1)).2 (Or.inl rfl)).1,
   ((make_timeout_validation "2.20.0" [] 0).2 (Or.inr (by decide))).1⟩

/-- Claim C10: a wrapper constructed with timeout 0 passes validation, yet
the runner arms its timer only for strictly positive timeouts, so with
timeout 0 no timer is ever created and every run behaves identically to the
-1 no-timeout sentinel. -/
theorem make_timeout_zero_no_timer (ver : String) (pv : List (String × String))
    (env : ShellEnv) :
    (CodeQL.make ver pv 0).validationError = none ∧
    (CodeQL.make ver pv 0).versionCheckStarted = true ∧
    (runAsyncShell 0 env).timerArmed = false ∧
    runAsyncShell 0 env = runAsyncShell (-1) env := by
  refine ⟨rfl, rfl, ?_, ?_⟩
  · unfold runAsyncShell
    split <;> rfl
  · unfold runAsyncShell
    simp

/-- Helper: makeSuite succeeds with the two-entry array when the default pack
of the language has a configured version. -/
theorem makeSuite_ok (c : CodeQL) (language : String) (qids : List String)
    (v : String)
    (h : lookupAssoc c.packVersions (CodeQL.getDefaultQueryPackName language)
          = some v) :
    c.makeSuite language qids =
      .ok [SuiteEntry.packEntry "." (CodeQL.getDefaultQueryPackName language) v,
           SuiteEntry.includeEntry qids] := by
  unfold CodeQL.makeSuite CodeQL.getDefaultQueryPackVersion
  rw [h]

/-- Claim C8: when the language's default pack name has a configured version,
makeSuite produces (as the parsed JSON of the written file) exactly the
two-element array of the pack entry (queries ".", from the default pack name,
the configured version) and the include entry listing the given query IDs in
argument order; when no version is configured it fails with the
missing-pack-version error instead. -/
theorem makeSuite_content (c : CodeQL) (language : String)
    (queryIds : List String) :
    (∀ v, lookupAssoc c.packVersions (CodeQL.getDefaultQueryPackName language)
            = some v →
      c.makeSuite language queryIds =
        .ok [SuiteEntry.packEntry "." (CodeQL.getDefaultQueryPackName language) v,
             SuiteEntry.includeEntry queryIds]) ∧
    (lookupAssoc c.packVersions (CodeQL.getDefaultQueryPackName language) = none →
      c.makeSuite language queryIds =
        .error ("No default query pack version found for " ++ language)) := by
  constructor
  · intro v h
    exact makeSuite_ok c language queryIds v h
  · intro h
    unfold CodeQL.makeSuite CodeQL.getDefaultQueryPackVersion
    rw [h]

/-- Witness for C8: with the configured version 1.2.5 for the pack
codeql/javascript-queries, makeSuite on javascript and js/xss yields the
expected two-element array; with an empty version table it fails with the
missing-pack-version error. -/
theorem makeSuite_content_witness :
    (CodeQL.mk [("codeql/javascript-queries", "1.2.5")] (-1) []).makeSuite
        "javascript" ["js/xss"]
      = .ok [SuiteEntry.packEntry "."
               (CodeQL.getDefaultQueryPackName "javascript") "1.2.5",
             SuiteEntry.includeEntry ["js/xss"]] ∧
    (CodeQL.mk [] (-1) []).makeSuite "javascript" ["js/xss"]
      = .error ("No default query pack version found for " ++ "javascript") :=
  ⟨(makeSuite_content (CodeQL.mk [("codeql/javascript-queries", "1.2.5")] (-1) [])
      "javascript" ["js/xss"]).1 "1.2.5" (by decide),
   (makeSuite_content (CodeQL.mk [] (-1) []) "javascript" ["js/xss"]).2 rfl⟩

/-- Helper: populateCache only prepends keys from the unresolved list, so the
lookup of any other key is unchanged. -/
theorem populateCache_lookup_of_not_mem (us : List String) :
    ∀ (c : Cache) (res : List String) (key : String), key ∉ us →
      lookupCache (populateCache c us res) key = lookupCache c key := by
  induction us with
  | nil => intro c res key _; rfl
  | cons u us ih =>
    intro c res key h
    simp only [List.mem_cons, not_or] at h
    simp only [populateCache]
    rw [ih _ _ _ h.2]
    simp [mapSet, lookupCache, Ne.symm h.1]

/-- Helper: after populateCache every key of the unresolved list is present in
the cache (even when the resolved list is too short — the stored value is
then undefined, exactly as Map.set with an out-of-range index). -/
theorem populateCache_has_of_mem (us : List String) :
    ∀ (c : Cache) (res : List String) (key : String), key ∈ us →
      mapHas (populateCache c us res) key = true := by
  induction us with
  | nil => intro c res key h; simp at h
  | cons u us ih =>
    intro c res key h
    by_cases hm : key ∈ us
    · simp only [populateCache]
      exact ih _ _ _ hm
    · have hk : key = u := by
        rcases List.mem_cons.mp h with h1 | h1
        · exact h1
        · exact absurd h1 hm
      subst hk
      simp only [populateCache]
      unfold mapHas
      rw [populateCache_lookup_of_not_mem us _ _ _ hm]
      simp [mapSet, lookupCache]

/-- Helper: with a duplicate-free unresolved list, the key at index j ends up
mapped to the resolved entry at index j — the zip of the for loop. -/
theorem populateCache_get_at (us : List String) :
    ∀ (c : Cache) (res : List String) (j : Nat) (key : String),
      us.Nodup → us[j]? = some key →
      lookupCache (populateCache c us res) key = some res[j]? := by
  induction us with
  | nil => intro c res j key _ h; simp at h
  | cons u us ih =>
    intro c res j key hnd h
    match j with
    | 0 =>
      have hk : u = key := by simpa using h
      subst hk
      have hnotin : u ∉ us := (List.nodup_cons.mp hnd).1
      simp only [populateCache]
      rw [populateCache_lookup_of_not_mem us _ _ _ hnotin]
      cases res <;> simp [mapSet, lookupCache]
    | j + 1 =>
      have h' : us[j]? = some key := by simpa using h
      have hnd' : us.Nodup := (List.nodup_cons.mp hnd).2
      simp only [populateCache]
      rw [ih _ _ _ _ hnd' h']
      congr 1
      cases res with
      | nil => simp
      | cons r rs => simp

/-- Helper: when the resolved list has the same length as the unresolved list
(the order-preserving resolver assumption), every unresolved key receives an
actual path (not undefined). -/
theorem populateCache_get_isSome (us : List String) :
    ∀ (c : Cache) (res : List String) (key : String),
      res.length = us.length → key ∈ us →
      (mapGet (populateCache c us res) key).isSome = true := by
  induction us with
  | nil => intro c res key _ h; simp at h
  | cons u us ih =>
    intro c res key hlen h
    cases res with
    | nil => simp at hlen
    | cons r rs =>
      have hlen' : rs.length = us.length := by simpa using hlen
      by_cases hm : key ∈ us
      · simp only [populateCache, List.drop_succ_cons, List.drop_zero]
        exact ih _ _ _ hlen' hm
      · have hk : key = u := by
          rcases List.mem_cons.mp h with h1 | h1
          · exact h1
          · exact absurd h1 hm
        subst hk
        simp only [populateCache]
        unfold mapGet
        rw [populateCache_lookup_of_not_mem us _ _ _ hm]
        simp [mapSet, lookupCache]

/-- Helper: a Bool that is not true is false. -/
theorem bool_eq_false {b : Bool} (h : ¬ b = true) : b = false := by
  cases b
  · rfl
  · exact absurd rfl h

/-- Helper: populateCache leaves the presence of keys outside the unresolved
list unchanged. -/
theorem populateCache_has_of_not_mem (us : List String) (c : Cache)
    (res : List String) (key : String) (h : key ∉ us) :
    mapHas (populateCache c us res) key = mapHas c key := by
  unfold mapHas
  rw [populateCache_lookup_of_not_mem us c res key h]

/-- Helper: after populating the cache over the uncached identifiers of a
request, every requested identifier is present. -/
theorem populate_filter_has (cache : Cache) (ids : List String) (id : String)
    (hid : id ∈ ids) (res : List String) :
    mapHas (populateCache cache (ids.filter (fun x => !(mapHas cache x))) res) id
      = true := by
  by_cases hh : mapHas cache id = true
  · have hnot : id ∉ ids.filter (fun x => !(mapHas cache x)) := by
      intro hmem
      have hc := (List.mem_filter.mp hmem).2
      rw [hh] at hc
      simp at hc
    rw [populateCache_has_of_not_mem _ _ _ _ hnot]
    exact hh
  · exact populateCache_has_of_mem _ _ _ _
      (List.mem_filter.mpr ⟨hid, by simp [bool_eq_false hh]⟩)

/-- Helper: with a configured pack version and a nonempty unresolved list,
resolveQueries takes the resolve branch: it issues the request over exactly
the unresolved identifiers, zips the resolver's answer into the cache, and
reads every result off the updated cache. -/
theorem resolveQueries_eq_pos (c : CodeQL) (resolver : List String → List String)
    (language : String) (ids : List String) (v : String)
    (hpack : lookupAssoc c.packVersions (CodeQL.getDefaultQueryPackName language)
              = some v)
    (hpos : 0 < (ids.filter (fun id => !(mapHas c.resolvedQueries id))).length) :
    c.resolveQueries resolver language ids =
      .ok (ResolveOutcome.mk
        (ids.map (mapGet (populateCache c.resolvedQueries
          (ids.filter (fun id => !(mapHas c.resolvedQueries id)))
          (resolver (ids.filter (fun id => !(mapHas c.resolvedQueries id)))))))
        (CodeQL.mk c.packVersions c.timeout
          (populateCache c.resolvedQueries
            (ids.filter (fun id => !(mapHas c.resolvedQueries id)))
            (resolver (ids.filter (fun id => !(mapHas c.resolvedQueries id))))))
        (some (ids.filter (fun id => !(mapHas c.resolvedQueries id))))) := by
  simp only [CodeQL.resolveQueries]
  rw [if_pos hpos, makeSuite_ok c language _ v hpack]

/-- Helper: with an empty unresolved list, resolveQueries issues no request
and answers from the unchanged cache. -/
theorem resolveQueries_eq_zero (c : CodeQL) (resolver : List String → List String)
    (language : String) (ids : List String)
    (hzero : ¬ 0 < (ids.filter (fun id => !(mapHas c.resolvedQueries id))).length) :
    c.resolveQueries resolver language ids =
      .ok (ResolveOutcome.mk (ids.map (mapGet c.resolvedQueries)) c none) := by
  simp only [CodeQL.resolveQueries]
  rw [if_neg hzero]

/-- Helper: whenever a resolveQueries call issues a request, that request is
exactly the list of identifiers not in the cache at the start of the call. -/
theorem resolveQueries_request_eq (c : CodeQL) (resolver : List String → List String)
    (language : String) (ids : List String) (out : ResolveOutcome) (l : List String)
    (h1 : c.resolveQueries resolver language ids = .ok out)
    (h2 : out.request = some l) :
    l = ids.filter (fun id => !(mapHas c.resolvedQueries id)) := by
  by_cases hpos : 0 < (ids.filter (fun id => !(mapHas c.resolvedQueries id))).length
  · simp only [CodeQL.resolveQueries] at h1
    rw [if_pos hpos] at h1
    cases hmk : c.makeSuite language
        (ids.filter (fun id => !(mapHas c.resolvedQueries id))) with
    | error e =>
      rw [hmk] at h1
      exact absurd h1 (by simp)
    | ok s =>
      rw [hmk] at h1
      injection h1 with h1
      rw [← h1] at h2
      injection h2 with h2
      exact h2.symm
  · simp only [CodeQL.resolveQueries] at h1
    rw [if_neg hpos] at h1
    injection h1 with h1
    rw [← h1] at h2
    exact absurd h2 (by simp)

/-- Helper: the number of identifiers not yet cached plus the number already
cached is the number of requested identifiers (N = (N-M) + M). -/
theorem length_filter_not_add (p : String → Bool) (l : List String) :
    (l.filter (fun a => !(p a))).length + (l.filter p).length = l.length := by
  induction l with
  | nil => rfl
  | cons a l ih => by_cases h : p a <;> simp [h, List.filter_cons] <;> omega

/-- Claim C4: for every resolveQueries call on one wrapper state (with a
configured pack version): the call issues its resolve request over exactly
the uncached identifiers — no request at all when every identifier is
cached — the uncached and cached counts add up to N, cache entries are never
evicted or invalidated, every requested identifier is cached afterwards, and
a later call on the resulting state never lists any of these identifiers in
its request again (so resolving the same identifier twice issues the resolve
command at most once for it). -/
theorem resolveQueries_cache_discipline (c : CodeQL)
    (resolver : List String → List String) (language : String)
    (ids : List String) (v : String)
    (hpack : lookupAssoc c.packVersions (CodeQL.getDefaultQueryPackName language)
              = some v) :
    ∃ out, c.resolveQueries resolver language ids = .ok out ∧
      out.request =
        (if 0 < (ids.filter (fun id => !(mapHas c.resolvedQueries id))).length
         then some (ids.filter (fun id => !(mapHas c.resolvedQueries id)))
         else none) ∧
      (ids.filter (fun id => !(mapHas c.resolvedQueries id))).length
        + (ids.filter (fun id => mapHas c.resolvedQueries id)).length
        = ids.length ∧
      (∀ key w, lookupCache c.resolvedQueries key = some w →
        lookupCache out.state.resolvedQueries key = some w) ∧
      (∀ id, id ∈ ids → mapHas out.state.resolvedQueries id = true) ∧
      (∀ ids2 out2 l,
        out.state.resolveQueries resolver language ids2 = .ok out2 →
        out2.request = some l → ∀ id, id ∈ ids → id ∉ l) := by
  by_cases hpos : 0 < (ids.filter (fun id => !(mapHas c.resolvedQueries id))).length
  · refine ⟨_, resolveQueries_eq_pos c resolver language ids v hpack hpos,
      ?_, ?_, ?_, ?_, ?_⟩
    · show some _ = _
      rw [if_pos hpos]
    · exact length_filter_not_add _ ids
    · intro key w h
      have hhas : mapHas c.resolvedQueries key = true := by
        unfold mapHas
        rw [h]
        rfl
      have hnot : key ∉ ids.filter (fun x => !(mapHas c.resolvedQueries x)) := by
        intro hmem
        have hc := (List.mem_filter.mp hmem).2
        rw [hhas] at hc
        simp at hc
      show lookupCache (populateCache _ _ _) key = some w
      rw [populateCache_lookup_of_not_mem _ _ _ _ hnot]
      exact h
    · intro id hid
      show mapHas (populateCache _ _ _) id = true
      exact populate_filter_has c.resolvedQueries ids id hid _
    · intro ids2 out2 l h1 h2 id hid hmem
      have hl := resolveQueries_request_eq _ resolver language ids2 out2 l h1 h2
      rw [hl] at hmem
      have hc := (List.mem_filter.mp hmem).2
      have hc' : (!(mapHas (populateCache c.resolvedQueries
          (ids.filter (fun x => !(mapHas c.resolvedQueries x)))
          (resolver (ids.filter (fun x => !(mapHas c.resolvedQueries x))))) id))
          = true := hc
      rw [populate_filter_has c.resolvedQueries ids id hid _] at hc'
      simp at hc'
  · refine ⟨_, resolveQueries_eq_zero c resolver language ids hpos,
      ?_, ?_, ?_, ?_, ?_⟩
    · show (none : Option (List String)) = _
      rw [if_neg hpos]
    · exact length_filter_not_add _ ids
    · intro key w h
      exact h
    · intro id hid
      by_cases hh : mapHas c.resolvedQueries id = true
      · exact hh
      · have hmem : id ∈ ids.filter (fun x => !(mapHas c.resolvedQueries x)) :=
          List.mem_filter.mpr ⟨hid, by simp [bool_eq_false hh]⟩
        exact absurd (List.length_pos_of_mem hmem) hpos
    · intro ids2 out2 l h1 h2 id hid hmem
      have hhas : mapHas c.resolvedQueries id = true := by
        by_cases hh : mapHas c.resolvedQueries id = true
        · exact hh
        · have hm : id ∈ ids.filter (fun x => !(mapHas c.resolvedQueries x)) :=
            List.mem_filter.mpr ⟨hid, by simp [bool_eq_false hh]⟩
          exact absurd (List.length_pos_of_mem hm) hpos
      have hl := resolveQueries_request_eq _ resolver language ids2 out2 l h1 h2
      rw [hl] at hmem
      have hc := (List.mem_filter.mp hmem).2
      have hc' : (!(mapHas c.resolvedQueries id)) = true := hc
      rw [hhas] at hc'
      simp at hc'

/-- Witness for C4: starting from an empty cache, resolving js/xss issues the
request over exactly [js/xss] and caches it. -/
theorem resolveQueries_cache_discipline_witness :
    ∃ out, (CodeQL.mk [("codeql/javascript-queries", "1.2.5")] (-1) []).resolveQueries
        (fun l => l.map (fun id => id ++ ".ql")) "javascript" ["js/xss"]
        = .ok out ∧
      out.request = some ["js/xss"] ∧
      mapHas out.state.resolvedQueries "js/xss" = true := by
  obtain ⟨out, h1, h2, _h3, _h4, h5, _h6⟩ :=
    resolveQueries_cache_discipline
      (CodeQL.mk [("codeql/javascript-queries", "1.2.5")] (-1) [])
      (fun l => l.map (fun id => id ++ ".ql")) "javascript" ["js/xss"] "1.2.5" rfl
  refine ⟨out, h1, ?_, h5 "js/xss" (by decide)⟩
  rw [h2]
  rfl

/-- Helper: populateCache leaves the stored value of keys outside the
unresolved list unchanged. -/
theorem populateCache_get_of_not_mem (us : List String) (c : Cache)
    (res : List String) (key : String) (h : key ∉ us) :
    mapGet (populateCache c us res) key = mapGet c key := by
  unfold mapGet
  rw [populateCache_lookup_of_not_mem us c res key h]

/-- Claim C5: under the assumption that the external resolver answers the
suite's identifier list order-preservingly (equal length, position j of the
answer resolving position j of the suite), a resolveQueries call (with a
configured pack version, a well-formed cache and duplicate-free identifiers)
returns exactly one resolved path for every originally requested identifier,
in the original order: the result list has one entry per requested
identifier, every entry is an actual path, an already-cached identifier
keeps its cached path, and an uncached identifier at position j of the
unresolved list receives the resolver's answer at position j. -/
theorem resolveQueries_order (c : CodeQL) (resolver : List String → List String)
    (language : String) (ids : List String) (v : String)
    (hpack : lookupAssoc c.packVersions (CodeQL.getDefaultQueryPackName language)
              = some v)
    (hwf : ∀ id, mapHas c.resolvedQueries id = true →
      (mapGet c.resolvedQueries id).isSome = true)
    (hlen : (resolver (ids.filter (fun id => !(mapHas c.resolvedQueries id)))).length
              = (ids.filter (fun id => !(mapHas c.resolvedQueries id))).length) :
    ∃ out, c.resolveQueries resolver language ids = .ok out ∧
      out.results.length = ids.length ∧
      (∀ i : Nat, i < ids.length → ∃ p, out.results[i]? = some (some p)) ∧
      (∀ (i : Nat) (id : String), ids[i]? = some id →
        mapHas c.resolvedQueries id = true →
        out.results[i]? = some (mapGet c.resolvedQueries id)) ∧
      (ids.Nodup → ∀ (i : Nat) (id : String) (j : Nat), ids[i]? = some id →
        (ids.filter (fun x => !(mapHas c.resolvedQueries x)))[j]? = some id →
        out.results[i]? =
          some ((resolver (ids.filter (fun x => !(mapHas c.resolvedQueries x))))[j]?)) := by
  by_cases hpos : 0 < (ids.filter (fun id => !(mapHas c.resolvedQueries id))).length
  · refine ⟨_, resolveQueries_eq_pos c resolver language ids v hpack hpos,
      ?_, ?_, ?_, ?_⟩
    · show (ids.map _).length = ids.length
      exact List.length_map _ _
    · intro i hi
      dsimp only
      rw [List.getElem?_map, List.getElem?_eq_getElem hi, Option.map_some']
      by_cases hh : mapHas c.resolvedQueries ids[i] = true
      · have hnot : ids[i] ∉ ids.filter (fun x => !(mapHas c.resolvedQueries x)) := by
          intro hmem
          have hc := (List.mem_filter.mp hmem).2
          rw [hh] at hc
          simp at hc
        obtain ⟨p, hp⟩ := Option.isSome_iff_exists.mp (hwf ids[i] hh)
        exact ⟨p, by rw [populateCache_get_of_not_mem _ _ _ _ hnot, hp]⟩
      · have hmem : ids[i] ∈ ids.filter (fun x => !(mapHas c.resolvedQueries x)) :=
          List.mem_filter.mpr ⟨List.getElem_mem hi, by simp [bool_eq_false hh]⟩
        obtain ⟨p, hp⟩ := Option.isSome_iff_exists.mp
          (populateCache_get_isSome _ c.resolvedQueries _ ids[i] hlen hmem)
        exact ⟨p, by rw [hp]⟩
    · intro i id hi hhas
      dsimp only
      rw [List.getElem?_map, hi, Option.map_some']
      have hnot : id ∉ ids.filter (fun x => !(mapHas c.resolvedQueries x)) := by
        intro hmem
        have hc := (List.mem_filter.mp hmem).2
        rw [hhas] at hc
        simp at hc
      rw [populateCache_get_of_not_mem _ _ _ _ hnot]
    · intro hnd i id j hi hj
      dsimp only
      rw [List.getElem?_map, hi, Option.map_some']
      have hndus : (ids.filter (fun x => !(mapHas c.resolvedQueries x))).Nodup :=
        hnd.filter _
      have hat := populateCache_get_at _ c.resolvedQueries
        (resolver (ids.filter (fun x => !(mapHas c.resolvedQueries x)))) j id hndus hj
      have hget : mapGet (populateCache c.resolvedQueries
          (ids.filter (fun x => !(mapHas c.resolvedQueries x)))
          (resolver (ids.filter (fun x => !(mapHas c.resolvedQueries x))))) id
          = (resolver (ids.filter (fun x => !(mapHas c.resolvedQueries x))))[j]? := by
        unfold mapGet
        rw [hat]
        rfl
      rw [hget]
  · have hall : ∀ id, id ∈ ids → mapHas c.resolvedQueries id = true := by
      intro id hid
      by_cases hh : mapHas c.resolvedQueries id = true
      · exact hh
      · have hm : id ∈ ids.filter (fun x => !(mapHas c.resolvedQueries x)) :=
          List.mem_filter.mpr ⟨hid, by simp [bool_eq_false hh]⟩
        exact absurd (List.length_pos_of_mem hm) hpos
    refine ⟨_, resolveQueries_eq_zero c resolver language ids hpos, ?_, ?_, ?_, ?_⟩
    · show (ids.map _).length = ids.length
      exact List.length_map _ _
    · intro i hi
      dsimp only
      rw [List.getElem?_map, List.getElem?_eq_getElem hi, Option.map_some']
      obtain ⟨p, hp⟩ := Option.isSome_iff_exists.mp
        (hwf ids[i] (hall ids[i] (List.getElem_mem hi)))
      exact ⟨p, by rw [hp]⟩
    · intro i id hi hhas
      dsimp only
      rw [List.getElem?_map, hi, Option.map_some']
    · intro _hnd i id j hi hj
      have hnil : ids.filter (fun x => !(mapHas c.resolvedQueries x)) = [] :=
        List.length_eq_zero.mp (Nat.eq_zero_of_not_pos hpos)
      rw [hnil] at hj
      simp at hj

/-- Witness for C5: with an empty cache and a resolver mapping each ID to a
path, resolving [js/xss] yields that path at position 0. -/
theorem resolveQueries_order_witness :
    ∃ out, (CodeQL.mk [("codeql/javascript-queries", "1.2.5")] (-1) []).resolveQueries
        (fun l => l.map (fun id => "/pack/" ++ id ++ ".ql")) "javascript" ["js/xss"]
        = .ok out ∧
      out.results[0]? = some (some "/pack/js/xss.ql") := by
  obtain ⟨out, h1, _h2, _h3, _h4, h5⟩ :=
    resolveQueries_order
      (CodeQL.mk [("codeql/javascript-queries", "1.2.5")] (-1) [])
      (fun l => l.map (fun id => "/pack/" ++ id ++ ".ql")) "javascript"
      ["js/xss"] "1.2.5" rfl
      (fun id h => absurd h (by simp [mapHas, lookupCache]))
      (by simp)
  refine ⟨out, h1, ?_⟩
  have hres := h5 (by decide) 0 "js/xss" 0 rfl rfl
  rw [hres]
  rfl
